import Mathlib

/-!
Shallow embedding of the request/response normalization pipeline of the
`timing-api-client` TypeScript library.

The embedded source files are:
* `src/utils/toSnakeCase.ts` — the recursive camelCase → snake_case key
  rewriter (`toSnakeCase`);
* `src/utils/request.ts` — `performRequest`'s catch branch and the
  `ApiError` constructor;
* `src/client.ts` — `TimingClient.request`'s inline catch branch;
* `src/resources/timeEntries.ts`, `src/resources/projects.ts`,
  `src/resources/reports.ts` — the resource methods' success paths
  (`response.data.data`) and query-parameter construction
  (`params: query ? toSnakeCase(query) : undefined`).

JavaScript runtime values that flow through this code are modelled by a
JSON-like value type `Json` (strings are modelled over Lean's `Char`; the
regex `/[A-Z]/` of the source is ASCII-only, and on ASCII strings
JavaScript's `toLowerCase` agrees with `Char.toLower`).  JavaScript objects
are modelled as insertion-ordered association lists; a well-formed object
has pairwise-distinct keys.  Numeric leaves are carried opaquely as `Int`
(no claim computes with numbers).
-/

mutual

inductive Json where
  | null : Json
  | bool : Bool → Json
  | num : Int → Json
  | str : String → Json
  | arr : JsonList → Json
  | obj : JsonFields → Json
deriving DecidableEq

inductive JsonList where
  | nil : JsonList
  | cons : Json → JsonList → JsonList
deriving DecidableEq

inductive JsonFields where
  | nil : JsonFields
  | cons : String → Json → JsonFields → JsonFields
deriving DecidableEq

end

/-- Characters matched by the source regex `/[A-Z]/` (ASCII codepoints 65–90). -/
def isUpperAZ (c : Char) : Bool := 65 ≤ c.toNat && c.toNat ≤ 90

/-- Source `key.replace(/([A-Z])/g, "_$1")`: insert an underscore immediately before every
ASCII uppercase letter (including one at position 0). -/
def replaceUpperChars : List Char → List Char
  | [] => []
  | c :: cs =>
    if isUpperAZ c then '_' :: c :: replaceUpperChars cs
    else c :: replaceUpperChars cs

/-- Source `key.replace(/([A-Z])/g, "_$1").toLowerCase()` from
`src/utils/toSnakeCase.ts` line 10 (`toLowerCase` modelled on ASCII by
`Char.toLower`). -/
def snakeKey (k : String) : String :=
  String.mk ((replaceUpperChars k.data).map Char.toLower)

/-- JavaScript property assignment `acc[key] = value` on an object modelled
as an insertion-ordered association list: an existing key keeps its position
and gets the new value, a fresh key is appended at the end. -/
def setKeyF : JsonFields → String → Json → JsonFields
  | .nil, k, v => .cons k v .nil
  | .cons k' v' rest, k, v =>
    if k' = k then .cons k' v rest
    else .cons k' v' (setKeyF rest k v)

mutual

/-- Function `toSnakeCase` from `src/utils/toSnakeCase.ts`: arrays map element-wise,
non-null objects are rebuilt by the `Object.entries(...).reduce` fold that
assigns `acc[snakeKey] = toSnakeCase(value)` starting from `{}`, all other
values are returned unchanged. -/
def toSnakeCase : Json → Json
  | .null => .null
  | .bool b => .bool b
  | .num n => .num n
  | .str s => .str s
  | .arr l => .arr (toSnakeCaseList l)
  | .obj fs => .obj (toSnakeCaseFold fs .nil)

/-- Source `obj.map(toSnakeCase)` on an array. -/
def toSnakeCaseList : JsonList → JsonList
  | .nil => .nil
  | .cons j tl => .cons (toSnakeCase j) (toSnakeCaseList tl)

/-- The `reduce` of `toSnakeCase`'s object branch, with the accumulator
object made explicit. -/
def toSnakeCaseFold : JsonFields → JsonFields → JsonFields
  | .nil, acc => acc
  | .cons k v tl, acc => toSnakeCaseFold tl (setKeyF acc (snakeKey k) (toSnakeCase v))

end

/-- The keys of an object, in insertion order. -/
def JsonFields.keys : JsonFields → List String
  | .nil => []
  | .cons k _ tl => k :: tl.keys

/-- Number of entries of an object. -/
def JsonFields.length : JsonFields → Nat
  | .nil => 0
  | .cons _ _ tl => tl.length + 1

/-- Whether the object has an entry with the given key. -/
def hasKeyF : JsonFields → String → Bool
  | .nil, _ => false
  | .cons k' _ rest, k => k' == k || hasKeyF rest k

/-- Concatenation of two association lists. -/
def JsonFields.append : JsonFields → JsonFields → JsonFields
  | .nil, ys => ys
  | .cons k v tl, ys => .cons k v (tl.append ys)

/-- The entry-wise image of an object under `toSnakeCase`: every key
rewritten by `snakeKey`, every value transformed, order preserved.  (The
source's fold coincides with this map exactly when the rewritten keys do not
collide.) -/
def snakeMapFields : JsonFields → JsonFields
  | .nil => .nil
  | .cons k v tl => .cons (snakeKey k) (toSnakeCase v) (snakeMapFields tl)

/-- Generic element-wise map on arrays. -/
def JsonList.map (f : Json → Json) : JsonList → JsonList
  | .nil => .nil
  | .cons j tl => .cons (f j) (tl.map f)

/-- Membership of a key in a list of keys. -/
def containsStr : List String → String → Bool
  | [], _ => false
  | k' :: rest, k => k' == k || containsStr rest k

/-- Pairwise distinctness of a list of keys. -/
def nodupStr : List String → Bool
  | [] => true
  | k :: rest => !(containsStr rest k) && nodupStr rest

/-- The keys of an object after rewriting by `snakeKey`. -/
def rewrittenKeys (fs : JsonFields) : List String := fs.keys.map snakeKey

/-- A character of a key in "lowercase-with-underscore form": an ASCII
lowercase letter (codepoints 97–122) or `'_'` (codepoint 95). -/
def isSnakeChar (c : Char) : Bool := (97 ≤ c.toNat && c.toNat ≤ 122) || c.toNat == 95

/-- A key in lowercase-with-underscore form. -/
def isSnakeString (s : String) : Bool := s.data.all isSnakeChar

mutual

/-- The value is a well-formed JavaScript value all of whose object keys, at
every nesting depth, are in lowercase-with-underscore form.  Well-formedness
of an object means pairwise-distinct keys, which every JavaScript object
has. -/
def snakeWF : Json → Bool
  | .null => true
  | .bool _ => true
  | .num _ => true
  | .str _ => true
  | .arr l => snakeWFList l
  | .obj fs => nodupStr fs.keys && snakeWFFields fs

def snakeWFList : JsonList → Bool
  | .nil => true
  | .cons j tl => snakeWF j && snakeWFList tl

def snakeWFFields : JsonFields → Bool
  | .nil => true
  | .cons k v tl => isSnakeString k && snakeWF v && snakeWFFields tl

end

/-! ### The transport-error model (`src/utils/request.ts`, `src/client.ts`) -/

/-- An Axios response attached to a transport error: HTTP status code and
optional body (`data`). -/
structure AxiosResponse where
  status : Nat
  body? : Option Json
deriving DecidableEq

/-- A JavaScript error value as observed by the catch blocks: whether
`axios.isAxiosError` recognises it, its own `message` string, and its
optional attached response. -/
structure JsError where
  isAxiosError : Bool
  message : String
  response? : Option AxiosResponse
deriving DecidableEq

/-- JavaScript truthiness of a `Json` value (`NaN` is outside the model). -/
def jsTruthy : Json → Bool
  | .null => false
  | .bool b => b
  | .num n => n != 0
  | .str s => s != ""
  | .arr _ => true
  | .obj _ => true

/-- JavaScript property read `v[k]`: first matching entry of an object,
`undefined` (`none`) on a missing key or a non-object. -/
def getField : Json → String → Option Json
  | .obj fs, k => fieldsGet fs k
  | _, _ => none
where
  fieldsGet : JsonFields → String → Option Json
    | .nil, _ => none
    | .cons k' v rest, k => if k' == k then some v else fieldsGet rest k

/-- JavaScript `a || b` where `a` is a possibly-`undefined` value (`undefined` is
falsy) and `b` is the right operand. -/
def jsOrJ (a : Option Json) (b : Json) : Json :=
  match a with
  | some v => if jsTruthy v then v else b
  | none => b

/-- JavaScript `a || b` on a possibly-`undefined` number (`0` and `undefined` are
falsy). -/
def jsOrNat (a : Option Nat) (b : Nat) : Nat :=
  match a with
  | some n => if n == 0 then b else n
  | none => b

mutual

/-- JavaScript `String(v)` / template-literal stringification of a `Json`
value: plain objects render as `"[object Object]"`, arrays join their
elements with `","` (with `null` rendered empty inside an array). -/
def jsStringOf : Json → String
  | .null => "null"
  | .bool b => cond b "true" "false"
  | .num n => toString n
  | .str s => s
  | .arr l => jsStringOfElems l
  | .obj _ => "[object Object]"

/-- Source semantics of `Array.prototype.join(",")` over the element stringifications. -/
def jsStringOfElems : JsonList → String
  | .nil => ""
  | .cons .null .nil => ""
  | .cons j .nil => jsStringOf j
  | .cons .null (.cons j' tl) => "," ++ jsStringOfElems (.cons j' tl)
  | .cons j (.cons j' tl) => jsStringOf j ++ "," ++ jsStringOfElems (.cons j' tl)

end

/-- Expression `axiosError.response?.data` — the body of the attached response, if
any. -/
def axiosErrorData (e : JsError) : Option Json :=
  e.response?.bind (·.body?)

/-- Expression `axiosError.response?.data?.k` — a field of the attached response body
reached by optional chaining. -/
def dataField (e : JsError) (k : String) : Option Json :=
  (axiosErrorData e).bind (fun d => getField d k)

/-- Expression `axiosError.response?.status || 500` (`src/utils/request.ts` line 86 and
`src/client.ts` line 90 contain the same expression). -/
def statusOf (e : JsError) : Nat :=
  jsOrNat (e.response?.map (·.status)) 500

/-- Expression `errorData?.error || errorData?.message || axiosError.message ||
"An unknown error occurred"` (`src/utils/request.ts` lines 88–92). -/
def errorMessageOf (e : JsError) : Json :=
  jsOrJ (dataField e "error")
    (jsOrJ (dataField e "message")
      (jsOrJ (some (.str e.message)) (.str "An unknown error occurred")))

/-- The `ApiError` instance built by the `ApiError` constructor of
`src/utils/request.ts`. -/
structure ApiErrorV where
  status : Nat
  message : String
  code? : Option Json
  originalError : JsError
deriving DecidableEq

/-- The `message` field after the `ApiError` constructor ran: `super` sets
`String(details.message)`, then — when `originalError.response?.data` is
truthy — the constructor overwrites it with
`` `${this.message}: ${details.originalError.response.data}` ``. -/
def apiErrorMessage (msg : Json) (orig : JsError) : String :=
  let base := jsStringOf msg
  match axiosErrorData orig with
  | some d => if jsTruthy d then base ++ ": " ++ jsStringOf d else base
  | none => base

/-- Constructor call `new ApiError({status, message, code, originalError})`. -/
def mkApiError (status : Nat) (msg : Json) (code? : Option Json)
    (orig : JsError) : ApiErrorV :=
  { status := status, message := apiErrorMessage msg orig,
    code? := code?, originalError := orig }

/-- A value thrown out of a catch block: the untouched original error, an
`ApiError` instance, or the plain object literal thrown by
`TimingClient.request`. -/
inductive Thrown where
  | raw : JsError → Thrown
  | apiError : ApiErrorV → Thrown
  | plainObj : Nat → Json → JsError → Thrown
deriving DecidableEq

/-- The catch branch of `performRequest` (`src/utils/request.ts` lines
83–105): an Axios error is rethrown as an `ApiError` built from status,
extracted message, optional `errorData?.code`, and the original error; any
other error is rethrown as-is. -/
def performRequest.onError (e : JsError) : Thrown :=
  if e.isAxiosError then
    .apiError (mkApiError (statusOf e) (errorMessageOf e) (dataField e "code") e)
  else
    .raw e

/-- The catch branch of `TimingClient.request` (`src/client.ts` lines
87–99): an Axios error is rethrown as the plain object literal
`{status: error.response?.status || 500, message: error.response?.data?.error
|| error.message, originalError: error}`; any other error is rethrown
as-is. -/
def clientRequest.onError (e : JsError) : Thrown :=
  if e.isAxiosError then
    .plainObj (statusOf e) (jsOrJ (dataField e "error") (.str e.message)) e
  else
    .raw e

/-- Method `TimeEntriesResource.start` has no try/catch (`src/resources/
timeEntries.ts` lines 128–134): a transport rejection propagates to the
caller unchanged.  Every other resource method has the same (absent) error
handling. -/
def timeEntriesStart.onError (e : JsError) : Thrown := .raw e

/-! ### Resource success paths and query parameters -/

/-- The success path shared by every resource method: `response.data.data`,
i.e. the `data` property of the response body. -/
def timeEntriesList.onSuccess (body : Json) : Option Json := getField body "data"

/-- Method `TimeEntriesResource.get`: `response.data.data`. -/
def timeEntriesGet.onSuccess (body : Json) : Option Json := getField body "data"

/-- Method `TimeEntriesResource.create`: `response.data.data`. -/
def timeEntriesCreate.onSuccess (body : Json) : Option Json := getField body "data"

/-- Method `TimeEntriesResource.update`: `response.data.data`. -/
def timeEntriesUpdate.onSuccess (body : Json) : Option Json := getField body "data"

/-- Method `TimeEntriesResource.start`: `response.data.data`. -/
def timeEntriesStart.onSuccess (body : Json) : Option Json := getField body "data"

/-- Method `TimeEntriesResource.stop`: `response.data.data`. -/
def timeEntriesStop.onSuccess (body : Json) : Option Json := getField body "data"

/-- Method `ReportsResource.generate`: `response.data.data`. -/
def reportsGenerate.onSuccess (body : Json) : Option Json := getField body "data"

/-- The `{data: T}` response envelope. -/
def envelope (t : Json) : Json := .obj (.cons "data" t .nil)

/-- The query parameters sent by `TimeEntriesResource.list`
(`src/resources/timeEntries.ts` lines 166–174):
`params: query ? toSnakeCase(query) : undefined`.  The caller-side `query`
is an optional object (every object is truthy). -/
def timeEntriesList.params (query : Option JsonFields) : Option Json :=
  match query with
  | some q => some (toSnakeCase (.obj q))
  | none => none

/-- Method `ReportsResource.generate` builds its parameters by the same expression
`params: query ? toSnakeCase(query) : undefined`. -/
def reportsGenerate.params (query : Option JsonFields) : Option Json :=
  match query with
  | some q => some (toSnakeCase (.obj q))
  | none => none

/-- The status carried by a thrown value, when it is one of the two
normalized shapes. -/
def Thrown.status? : Thrown → Option Nat
  | .raw _ => none
  | .apiError a => some a.status
  | .plainObj s _ _ => some s

/-! ### Spec-side casing rules, for comparison with the source's `snakeKey` -/

/-- Single-pass key rewrite: an underscore immediately before every ASCII
uppercase letter, that letter lowercased, every other character unchanged. -/
def specSnakeChars : List Char → List Char
  | [] => []
  | c :: cs =>
    if isUpperAZ c then '_' :: Char.toLower c :: specSnakeChars cs
    else c :: specSnakeChars cs

/-- The casing rule exactly as the claim words it: an underscore inserted
immediately before every uppercase letter that is *not at position 0*, each
such letter lowercased; the character at position 0 is left alone. -/
def claimSnakeKeyC1 (k : String) : String :=
  match k.data with
  | [] => ""
  | c :: cs => String.mk (c :: specSnakeChars cs)

/-- The casing rule with the position-0 exception removed: an underscore
inserted immediately before *every* uppercase letter, position 0 included,
each such letter lowercased. -/
def specSnakeKeyAll (k : String) : String := String.mk (specSnakeChars k.data)

/-! ### Lemmas about the casing transformer -/

theorem toLower_of_not_upperAZ (c : Char) (h : isUpperAZ c = false) :
    Char.toLower c = c := by
  unfold Char.toLower
  simp only [isUpperAZ, Bool.and_eq_false_iff, decide_eq_false_iff_not,
    Nat.not_le] at h
  rw [if_neg]
  rintro ⟨h1, h2⟩
  omega

theorem isSnakeChar_not_upper (c : Char) (h : isSnakeChar c = true) :
    isUpperAZ c = false := by
  simp only [isSnakeChar, Bool.or_eq_true, Bool.and_eq_true,
    decide_eq_true_eq, beq_iff_eq] at h
  simp only [isUpperAZ, Bool.and_eq_false_iff, decide_eq_false_iff_not,
    Nat.not_le]
  omega

theorem replaceUpperChars_map_toLower_eq_spec (l : List Char) :
    (replaceUpperChars l).map Char.toLower = specSnakeChars l := by
  induction l with
  | nil => rfl
  | cons c cs ih =>
    by_cases hc : isUpperAZ c = true
    · simp [replaceUpperChars, specSnakeChars, hc, ih]
    · simp only [Bool.not_eq_true] at hc
      simp [replaceUpperChars, specSnakeChars, hc, ih,
        toLower_of_not_upperAZ c hc]

theorem replaceUpperChars_of_snake (l : List Char)
    (h : l.all isSnakeChar = true) : replaceUpperChars l = l := by
  induction l with
  | nil => rfl
  | cons c cs ih =>
    simp only [List.all_cons, Bool.and_eq_true] at h
    simp [replaceUpperChars, isSnakeChar_not_upper c h.1, ih h.2]

theorem map_toLower_of_snake (l : List Char)
    (h : l.all isSnakeChar = true) : l.map Char.toLower = l := by
  induction l with
  | nil => rfl
  | cons c cs ih =>
    simp only [List.all_cons, Bool.and_eq_true] at h
    simp [toLower_of_not_upperAZ c (isSnakeChar_not_upper c h.1), ih h.2]

/-- A key already in lowercase-with-underscore form is a fixed point of the
source's key rewrite. -/
theorem snakeKey_of_snake (s : String) (h : isSnakeString s = true) :
    snakeKey s = s := by
  cases s with
  | mk data =>
    unfold isSnakeString at h
    unfold snakeKey
    rw [replaceUpperChars_of_snake data h, map_toLower_of_snake data h]

/-! ### Lemmas about the object fold of `toSnakeCase` -/

theorem setKeyF_fresh :
    ∀ (acc : JsonFields) (k : String) (v : Json),
      hasKeyF acc k = false →
      setKeyF acc k v = acc.append (.cons k v .nil)
  | .nil, _, _, _ => rfl
  | .cons k' v' rest, k, v, h => by
    simp only [hasKeyF, Bool.or_eq_false_iff, beq_eq_false_iff_ne,
      ne_eq] at h
    simp [setKeyF, h.1, JsonFields.append, setKeyF_fresh rest k v h.2]

theorem hasKeyF_append :
    ∀ (xs ys : JsonFields) (k : String),
      hasKeyF (xs.append ys) k = (hasKeyF xs k || hasKeyF ys k)
  | .nil, _, _ => rfl
  | .cons k' v' rest, ys, k => by
    simp [JsonFields.append, hasKeyF, hasKeyF_append rest ys k, Bool.or_assoc]

theorem fieldsAppend_assoc :
    ∀ (xs ys zs : JsonFields),
      (xs.append ys).append zs = xs.append (ys.append zs)
  | .nil, _, _ => rfl
  | .cons k v rest, ys, zs => by
    simp [JsonFields.append, fieldsAppend_assoc rest ys zs]

theorem containsStr_false_not_mem (l : List String) (k : String)
    (h : containsStr l k = false) : k ∉ l := by
  induction l with
  | nil => simp
  | cons k' rest ih =>
    simp only [containsStr, Bool.or_eq_false_iff, beq_eq_false_iff_ne,
      ne_eq] at h
    simp only [List.mem_cons, not_or]
    exact ⟨fun hEq => h.1 hEq.symm, ih h.2⟩

theorem fieldsAppend_nil : ∀ xs : JsonFields, xs.append .nil = xs
  | .nil => rfl
  | .cons k v rest => by simp [JsonFields.append, fieldsAppend_nil rest]

theorem rewrittenKeys_cons (k : String) (v : Json) (tl : JsonFields) :
    rewrittenKeys (.cons k v tl) = snakeKey k :: rewrittenKeys tl := rfl

/-- The object fold of `toSnakeCase`, run on an accumulator none of whose
keys will be hit, appends the entry-wise image. -/
theorem toSnakeCaseFold_eq_append :
    ∀ (fs : JsonFields) (acc : JsonFields),
      nodupStr (rewrittenKeys fs) = true →
      (∀ k ∈ rewrittenKeys fs, hasKeyF acc k = false) →
      toSnakeCaseFold fs acc = acc.append (snakeMapFields fs)
  | .nil, acc, _, _ => by
    show acc = acc.append .nil
    rw [fieldsAppend_nil]
  | .cons k v tl, acc, hnd, hdisj => by
    have hk : hasKeyF acc (snakeKey k) = false :=
      hdisj (snakeKey k) (by simp [rewrittenKeys_cons])
    have hnd' : nodupStr (rewrittenKeys tl) = true := by
      rw [rewrittenKeys_cons] at hnd
      simp only [nodupStr, Bool.and_eq_true] at hnd
      exact hnd.2
    have hnotin : containsStr (rewrittenKeys tl) (snakeKey k) = false := by
      rw [rewrittenKeys_cons] at hnd
      simp only [nodupStr, Bool.and_eq_true, Bool.not_eq_true',
        Bool.not_eq_true] at hnd
      exact hnd.1
    have hdisj' : ∀ k' ∈ rewrittenKeys tl,
        hasKeyF (acc.append (.cons (snakeKey k) (toSnakeCase v) .nil)) k' = false := by
      intro k' hk'
      rw [hasKeyF_append]
      have h1 : hasKeyF acc k' = false :=
        hdisj k' (by simp [rewrittenKeys_cons, hk'])
      have h2 : k' ≠ snakeKey k := by
        intro hEq
        rw [hEq] at hk'
        exact containsStr_false_not_mem _ _ hnotin hk'
      simp [h1, hasKeyF, h2, Ne.symm h2]
    calc toSnakeCaseFold (.cons k v tl) acc
        = toSnakeCaseFold tl (setKeyF acc (snakeKey k) (toSnakeCase v)) := rfl
      _ = toSnakeCaseFold tl (acc.append (.cons (snakeKey k) (toSnakeCase v) .nil)) := by
          rw [setKeyF_fresh acc _ _ hk]
      _ = (acc.append (.cons (snakeKey k) (toSnakeCase v) .nil)).append (snakeMapFields tl) :=
          toSnakeCaseFold_eq_append tl _ hnd' hdisj'
      _ = acc.append (snakeMapFields (.cons k v tl)) := by
          rw [fieldsAppend_assoc]
          rfl

/-- When the rewritten keys of an object do not collide, `toSnakeCase`
rebuilds the object entry-wise: every key rewritten, every value
transformed, order preserved. -/
theorem toSnakeCase_obj_nodup (fs : JsonFields)
    (h : nodupStr (rewrittenKeys fs) = true) :
    toSnakeCase (.obj fs) = .obj (snakeMapFields fs) := by
  have : toSnakeCase (Json.obj fs) = .obj (toSnakeCaseFold fs .nil) := rfl
  rw [this, toSnakeCaseFold_eq_append fs .nil h (fun k _ => rfl)]
  rfl

theorem toSnakeCaseList_eq_map :
    ∀ l : JsonList, toSnakeCaseList l = l.map toSnakeCase
  | .nil => rfl
  | .cons j tl => by
    simp [toSnakeCaseList, JsonList.map, toSnakeCaseList_eq_map tl]

/-- When every key of an object is already in lowercase-with-underscore
form, the key rewrite leaves the key list unchanged. -/
theorem rewrittenKeys_of_snake :
    ∀ fs : JsonFields, snakeWFFields fs = true → rewrittenKeys fs = fs.keys
  | .nil, _ => rfl
  | .cons k v tl, h => by
    simp only [snakeWFFields, Bool.and_eq_true] at h
    rw [rewrittenKeys_cons, snakeKey_of_snake k h.1.1,
      rewrittenKeys_of_snake tl h.2]
    rfl

mutual

/-- A well-formed value all of whose keys are already snake_case is a fixed
point of `toSnakeCase`. -/
theorem toSnakeCase_fix : ∀ j : Json, snakeWF j = true → toSnakeCase j = j
  | .null, _ => rfl
  | .bool _, _ => rfl
  | .num _, _ => rfl
  | .str _, _ => rfl
  | .arr l, h => by
    have hl : snakeWFList l = true := h
    show Json.arr (toSnakeCaseList l) = Json.arr l
    rw [toSnakeCaseList_fix l hl]
  | .obj fs, h => by
    have h' : nodupStr fs.keys = true ∧ snakeWFFields fs = true := by
      simpa only [snakeWF, Bool.and_eq_true] using h
    have hobj : toSnakeCase (Json.obj fs) = Json.obj (snakeMapFields fs) :=
      toSnakeCase_obj_nodup fs
        (by rw [rewrittenKeys_of_snake fs h'.2]; exact h'.1)
    rw [hobj, snakeMapFields_fix fs h'.2]

theorem toSnakeCaseList_fix :
    ∀ l : JsonList, snakeWFList l = true → toSnakeCaseList l = l
  | .nil, _ => rfl
  | .cons j tl, h => by
    have h' : snakeWF j = true ∧ snakeWFList tl = true := by
      simpa only [snakeWFList, Bool.and_eq_true] using h
    show JsonList.cons (toSnakeCase j) (toSnakeCaseList tl) = JsonList.cons j tl
    rw [toSnakeCase_fix j h'.1, toSnakeCaseList_fix tl h'.2]

theorem snakeMapFields_fix :
    ∀ fs : JsonFields, snakeWFFields fs = true → snakeMapFields fs = fs
  | .nil, _ => rfl
  | .cons k v tl, h => by
    have h' : (isSnakeString k = true ∧ snakeWF v = true) ∧ snakeWFFields tl = true := by
      simpa only [snakeWFFields, Bool.and_eq_true] using h
    show JsonFields.cons (snakeKey k) (toSnakeCase v) (snakeMapFields tl)
        = JsonFields.cons k v tl
    rw [snakeKey_of_snake k h'.1.1, toSnakeCase_fix v h'.1.2,
      snakeMapFields_fix tl h'.2]

end

/-! ### Concrete transport errors used by the claims -/

/-- A transport error carrying a 404 response with body `{error: "Not Found"}`. -/
def e404 : JsError :=
  { isAxiosError := true,
    message := "Request failed with status code 404",
    response? := some { status := 404, body? := some (.obj (.cons "error" (.str "Not Found") .nil)) } }

/-- A network failure: an Axios error with no response attached. -/
def eNet : JsError :=
  { isAxiosError := true, message := "Network Error", response? := none }

/-- A network failure whose transport message is the empty string. -/
def eEmptyMsg : JsError :=
  { isAxiosError := true, message := "", response? := none }

/-- A plain programming error, not recognised by `axios.isAxiosError`. -/
def ePlain : JsError :=
  { isAxiosError := false, message := "Generic error", response? := none }

/-! ### Claims -/

/-- C1, counterexample.  The claim says the rewritten key equals the key with
an underscore inserted before every uppercase letter *not at position 0* and
in particular that an uppercase-initial key gains no leading underscore.  On
the key `"Foo"` the source's rewrite yields `"_foo"`, which has a leading
underscore and differs from the claim's rule (and from `"foo"` as well). -/
theorem claimC1_counterexample :
    snakeKey "Foo" = "_foo"
    ∧ claimSnakeKeyC1 "Foo" = "Foo"
    ∧ snakeKey "Foo" ≠ claimSnakeKeyC1 "Foo"
    ∧ snakeKey "Foo" ≠ "foo" := by decide

/-- C1, amended.  For every key `k`, the rewritten key equals `k` with an
underscore inserted immediately before *every* uppercase letter — position 0
included — and each such letter lowercased; an uppercase-initial key
therefore gains a leading underscore. -/
theorem claimC1_amended (k : String) : snakeKey k = specSnakeKeyAll k := by
  cases k with
  | mk data =>
    unfold snakeKey specSnakeKeyAll
    rw [replaceUpperChars_map_toLower_eq_spec]

/-- C4.  For every mapping whose keys, at every nesting depth, are already in
lowercase-with-underscore form, `toSnakeCase` is the identity and hence
idempotent: `transform(transform(m)) = transform(m) = m`. -/
theorem claimC4_idempotent (fs : JsonFields) (h : snakeWF (.obj fs) = true) :
    toSnakeCase (toSnakeCase (.obj fs)) = toSnakeCase (.obj fs)
    ∧ toSnakeCase (.obj fs) = .obj fs := by
  have hfix := toSnakeCase_fix (.obj fs) h
  exact ⟨by rw [hfix, hfix], hfix⟩

/-- A nested all-snake_case mapping used to witness C4. -/
def snakeExample : JsonFields :=
  .cons "start_date" (.str "2023-01-01T00:00:00+00:00")
    (.cons "custom_fields" (.obj (.cons "a_b" (.num 1) .nil)) .nil)

/-- C4, witness at a concrete nested snake_case mapping. -/
theorem claimC4_witness : toSnakeCase (.obj snakeExample) = .obj snakeExample :=
  (claimC4_idempotent snakeExample (by decide)).2

/-- C6.  An error that `axios.isAxiosError` does not recognise is rethrown by
`performRequest`'s catch block exactly as it is: no wrapping, no status
attached, no field modified. -/
theorem claimC6_passthrough (e : JsError) (h : e.isAxiosError = false) :
    performRequest.onError e = Thrown.raw e := by
  simp [performRequest.onError, h]

/-- C6, witness at a concrete non-transport error. -/
theorem claimC6_witness :
    ePlain.isAxiosError = false ∧ performRequest.onError ePlain = Thrown.raw ePlain :=
  ⟨rfl, claimC6_passthrough ePlain rfl⟩

/-- C7.  `list()` called with no query sends no `params` at all (`undefined`),
`list({})` sends the empty parameter object, and any present query `q` is
sent as `toSnakeCase(q)`. -/
theorem claimC7_absent_vs_empty :
    timeEntriesList.params none = none
    ∧ timeEntriesList.params (some .nil) = some (Json.obj .nil)
    ∧ (∀ q : JsonFields, timeEntriesList.params (some q) = some (toSnakeCase (.obj q))) :=
  ⟨rfl, rfl, fun _ => rfl⟩

/-- C9.  Every resource operation returns exactly the `data` field of the
`{data: T}` response envelope, and a `{data: []}` body makes `list()` and
`generate()` return the empty sequence. -/
theorem claimC9_envelope_unwrap :
    (∀ t, timeEntriesList.onSuccess (envelope t) = some t)
    ∧ (∀ t, timeEntriesGet.onSuccess (envelope t) = some t)
    ∧ (∀ t, timeEntriesCreate.onSuccess (envelope t) = some t)
    ∧ (∀ t, timeEntriesUpdate.onSuccess (envelope t) = some t)
    ∧ (∀ t, timeEntriesStart.onSuccess (envelope t) = some t)
    ∧ (∀ t, timeEntriesStop.onSuccess (envelope t) = some t)
    ∧ (∀ t, reportsGenerate.onSuccess (envelope t) = some t)
    ∧ timeEntriesList.onSuccess (envelope (.arr .nil)) = some (.arr .nil)
    ∧ reportsGenerate.onSuccess (envelope (.arr .nil)) = some (.arr .nil) :=
  ⟨fun _ => rfl, fun _ => rfl, fun _ => rfl, fun _ => rfl, fun _ => rfl,
    fun _ => rfl, fun _ => rfl, rfl, rfl⟩

/-- The colliding mapping of C10: two distinct keys with the same rewritten
form. -/
def collideIn : JsonFields := .cons "fooBar" (.num 1) (.cons "foo_bar" (.num 2) .nil)

/-- The single-entry image of `collideIn` under `toSnakeCase`. -/
def collideOut : JsonFields := .cons "foo_bar" (.num 2) .nil

/-- C10.  `toSnakeCase` is not injective on mappings: on
`{fooBar: 1, foo_bar: 2}` the two keys collide, the later value silently
overwrites the earlier one, and the output has fewer entries than the
input.  The distinct mapping `{foo_bar: 2}` has the same image. -/
theorem claimC10_collision :
    toSnakeCase (.obj collideIn) = .obj collideOut
    ∧ JsonFields.length collideOut < JsonFields.length collideIn
    ∧ Json.obj collideIn ≠ Json.obj collideOut
    ∧ toSnakeCase (.obj collideOut) = toSnakeCase (.obj collideIn) := by decide

/-- C2, code bug.  The claim (and the repository's own test
`request.test.ts`, which expects the constructed `ApiError`'s message to
stay `"Bad Request"` when `response.data` is present) says a 404 with body
`{error: "Not Found"}` normalizes to `{status: 404, message: "Not Found"}`.
The `ApiError` constructor, however, appends the template-stringified
response body to the message whenever `response.data` is truthy, producing
`"Not Found: [object Object]"`: status matches the claim, message does
not. -/
theorem claimC2_code_divergence :
    performRequest.onError e404 =
      Thrown.apiError
        { status := 404, message := "Not Found: [object Object]",
          code? := none, originalError := e404 }
    ∧ "Not Found: [object Object]" ≠ "Not Found" := by decide

/-- C3, code bug.  The claim (and the README's error-handling contract) says
one shared normalization routine is invoked by every resource method and by
`TimingClient.request`, so all throw the same normalized error.  In the code
the resource methods have no catch at all — a transport error propagates
raw — and `TimingClient.request` has its own inline catch that throws a
plain object, not an `ApiError`; on the 404 error all three boundaries throw
pairwise different values. -/
theorem claimC3_not_centralized :
    timeEntriesStart.onError e404 = Thrown.raw e404
    ∧ clientRequest.onError e404 = Thrown.plainObj 404 (.str "Not Found") e404
    ∧ performRequest.onError e404 =
        Thrown.apiError (mkApiError 404 (.str "Not Found") none e404)
    ∧ timeEntriesStart.onError e404 ≠ performRequest.onError e404
    ∧ clientRequest.onError e404 ≠ performRequest.onError e404
    ∧ timeEntriesStart.onError e404 ≠ clientRequest.onError e404 := by decide

/-- C5, counterexample.  The claim says a no-response transport error
normalizes to the transport's own message.  With an empty transport message
the `||` chain falls through to the fixed fallback, so the thrown message is
`"An unknown error occurred"`, not the transport's own (empty) message. -/
theorem claimC5_counterexample :
    performRequest.onError eEmptyMsg =
      Thrown.apiError
        { status := 500, message := "An unknown error occurred",
          code? := none, originalError := eEmptyMsg }
    ∧ "An unknown error occurred" ≠ eEmptyMsg.message := by decide

/-- C5, amended.  A no-response transport error is thrown with status 500,
no code, and the transport's own message when that message is nonempty
(otherwise the fixed fallback `"An unknown error occurred"`); when a
response with a nonzero HTTP status is present, the thrown status equals
that status. -/
theorem claimC5_amended (e : JsError) (hax : e.isAxiosError = true) :
    (e.response? = none →
      performRequest.onError e =
        Thrown.apiError
          { status := 500,
            message := if e.message = "" then "An unknown error occurred" else e.message,
            code? := none, originalError := e })
    ∧ (∀ r, e.response? = some r → r.status ≠ 0 →
        (performRequest.onError e).status? = some r.status) := by
  constructor
  · intro hr
    simp only [performRequest.onError, hax, if_true]
    simp only [mkApiError, statusOf, axiosErrorData, dataField, errorMessageOf,
      apiErrorMessage, hr, Option.map_none, Option.none_bind, jsOrNat, jsOrJ]
    by_cases hm : e.message = ""
    · simp [hm, jsTruthy, jsStringOf]
    · simp [hm, jsTruthy, jsStringOf]
  · intro r hr hs
    have hb : (r.status == 0) = false := by simpa using hs
    simp [performRequest.onError, hax, Thrown.status?, mkApiError, statusOf,
      hr, jsOrNat, hb]

/-- C5, witness: the amended statement applied to a concrete network
failure. -/
theorem claimC5_witness :
    (eNet.response? = none →
      performRequest.onError eNet =
        Thrown.apiError
          { status := 500,
            message := if eNet.message = "" then "An unknown error occurred" else eNet.message,
            code? := none, originalError := eNet })
    ∧ (∀ r, eNet.response? = some r → r.status ≠ 0 →
        (performRequest.onError eNet).status? = some r.status) :=
  claimC5_amended eNet rfl

/-- C8.  `toSnakeCase` recurses structurally: a sequence maps to the
element-wise image in order, a mapping (whose rewritten keys do not collide,
as is the case for every JavaScript object that triggers no C10-style
collision) maps to the mapping with every key rewritten and every value
transformed, scalar leaves pass through unchanged; in particular
`{fooBar: 1} ↦ {foo_bar: 1}`, `{a: [{nestedKey: 2}]} ↦ {a: [{nested_key: 2}]}`
and `{tags: ["a","B"]}` is unchanged. -/
theorem claimC8_structural (fs : JsonFields)
    (h : nodupStr (rewrittenKeys fs) = true) :
    (∀ l, toSnakeCase (Json.arr l) = Json.arr (l.map toSnakeCase))
    ∧ toSnakeCase (Json.obj fs) = Json.obj (snakeMapFields fs)
    ∧ (∀ b, toSnakeCase (Json.bool b) = Json.bool b)
    ∧ (∀ n, toSnakeCase (Json.num n) = Json.num n)
    ∧ (∀ s, toSnakeCase (Json.str s) = Json.str s)
    ∧ toSnakeCase Json.null = Json.null
    ∧ toSnakeCase (.obj (.cons "fooBar" (.num 1) .nil))
        = .obj (.cons "foo_bar" (.num 1) .nil)
    ∧ toSnakeCase (.obj (.cons "a" (.arr (.cons (.obj (.cons "nestedKey" (.num 2) .nil)) .nil)) .nil))
        = .obj (.cons "a" (.arr (.cons (.obj (.cons "nested_key" (.num 2) .nil)) .nil)) .nil)
    ∧ toSnakeCase (.obj (.cons "tags" (.arr (.cons (.str "a") (.cons (.str "B") .nil))) .nil))
        = .obj (.cons "tags" (.arr (.cons (.str "a") (.cons (.str "B") .nil))) .nil) := by
  refine ⟨fun l => ?_, toSnakeCase_obj_nodup fs h, fun _ => rfl, fun _ => rfl,
    fun _ => rfl, rfl, by decide, by decide, by decide⟩
  show Json.arr (toSnakeCaseList l) = _
  rw [toSnakeCaseList_eq_map]

/-- C8, witness: the mapping part of the claim at a concrete two-key
camelCase object with distinct rewritten keys. -/
theorem claimC8_witness :
    toSnakeCase (Json.obj (.cons "startDate" (.str "2023") (.cons "replaceExisting" (.bool true) .nil)))
      = Json.obj (snakeMapFields (.cons "startDate" (.str "2023") (.cons "replaceExisting" (.bool true) .nil))) :=
  (claimC8_structural (.cons "startDate" (.str "2023") (.cons "replaceExisting" (.bool true) .nil))
    (by decide)).2.1
